import Mathlib

/-!
Shallow embedding of the nanosync core (the resolver-keyed draft):
field model, integration contract, schema builder, text generator,
resolution engine, validator and sync orchestrator, together with
proofs of the specification's testable properties.

Conventions of the embedding:
* JavaScript promises that fulfil or reject become `Except String`;
  an integration callback that may be `undefined` becomes an `Option`.
* A JavaScript object literal map (`Record<string, _>`) becomes an
  association list `List (String × _)`; object spread `{...acc, ...f}`
  is modelled by `jsUpsert` (replace the value in place when the key
  exists, append otherwise), which matches JS insertion-order
  semantics for keys.
* `FieldValue` is specialised to `String` (the library's own
  `FieldValue` cast coerces everything through `String`).
* The GraphQL engine is modelled by `graphqlExec`: a lexer/parser for
  exactly the operation grammar the two text generators emit
  (`query{a b}` and `mutation{a(resolvedQuery:"v") ...}`) followed by
  per-slot resolver dispatch.  Field names must be GraphQL names;
  string literals end at the first `"` and reject `\`, raw newlines —
  mirroring the real lexer's behaviour on the generated strings.
-/

namespace Nanosync

/-- FieldType covers the basic column types; declared but never checked. -/
inductive FieldType where
  | string | number | boolean | date | time | datetime | json | array | object | custom
deriving DecidableEq, Repr

/-- FieldValue is specialised to strings in this embedding. -/
abbrev FieldValue := String

/-- A field in a source or target integration. -/
structure Field where
  key : String
  type : FieldType
deriving DecidableEq, Repr

/-- Two associated fields in a source and target integration. -/
structure MappedField where
  sourceField : Field
  targetField : Field
deriving DecidableEq, Repr

/-- A query resolver: async, may reject (modelled by `Except`). -/
abbrev QueryResolver := String → Except String FieldValue

/-- A mutation resolver: async, may reject (modelled by `Except`). -/
abbrev MutationResolver := String → FieldValue → Except String FieldValue

/-- An integration; the resolver slots may be absent (`undefined` in JS). -/
structure Integration where
  name : String
  description : String
  resolveQuery : Option QueryResolver
  resolveMutation : Option MutationResolver

/-- The root query object type: named slots, each slot's resolve closure
captures the `MappedField` it was generated from plus the shared resolver. -/
structure QueryType where
  fields : List (String × MappedField)
  resolver : Option QueryResolver

/-- The root mutation object type, analogous to `QueryType`. -/
structure MutationType where
  fields : List (String × MappedField)
  resolver : Option MutationResolver

/-- The generated schema: optional query and mutation object types. -/
structure GraphQLSchema where
  query : Option QueryType
  mutation : Option MutationType

/-- ProcessOptions initialise a new Process. -/
structure ProcessOptions where
  fields : List MappedField
  sourceIntegration : Integration
  targetIntegration : Integration

/-- A Process holds its initial options and the generated sync schema. -/
structure Process where
  options : ProcessOptions
  schema : GraphQLSchema

/-- findQueryFieldName finds the source field key given a target field key. -/
def findQueryFieldName (fields : List MappedField) (mutationFieldName : String) :
    Option String :=
  (fields.find? (fun f => mutationFieldName == f.targetField.key)).map
    (fun f => f.sourceField.key)

/-- findMutationFieldName finds the target field key given a source field key. -/
def findMutationFieldName (fields : List MappedField) (queryFieldName : String) :
    Option String :=
  (fields.find? (fun f => queryFieldName == f.sourceField.key)).map
    (fun f => f.targetField.key)

/-- One step of JS object spread `{...acc, ...f}` for a single-key object:
if the key is present, the value is replaced at its original position,
otherwise the pair is appended. -/
def jsUpsert (acc : List (String × α)) (entry : String × α) : List (String × α) :=
  if acc.any (fun p => p.1 == entry.1) then
    acc.map (fun p => if p.1 = entry.1 then (p.1, entry.2) else p)
  else
    acc ++ [entry]

/-- `list.reduce((acc, f) => ({...acc, ...f}), {})` over single-key objects. -/
def jsObjectFromEntries (l : List (String × α)) : List (String × α) :=
  l.foldl jsUpsert []

/-- createQuerySchema generates the root query object type: one slot per
mapped field, named `sourceField.key`, resolving `resolver(sourceField.key)`. -/
def createQuerySchema (fields : List MappedField) (resolver : Option QueryResolver) :
    QueryType :=
  { fields := jsObjectFromEntries (fields.map (fun f => (f.sourceField.key, f)))
    resolver := resolver }

/-- createMutationSchema generates the root mutation object type: one slot per
mapped field, named `targetField.key`, taking a `resolvedQuery` argument and
resolving `resolver(targetField.key, args.resolvedQuery)`. -/
def createMutationSchema (fields : List MappedField) (resolver : Option MutationResolver) :
    MutationType :=
  { fields := jsObjectFromEntries (fields.map (fun f => (f.targetField.key, f)))
    resolver := resolver }

/-- createSchema generates the graphql schema for a process. -/
def createSchema (fields : List MappedField) (sourceIntegration targetIntegration : Integration) :
    GraphQLSchema :=
  { query := some (createQuerySchema fields sourceIntegration.resolveQuery)
    mutation := some (createMutationSchema fields targetIntegration.resolveMutation) }

/-- JS `Array.prototype.join(" ")`. -/
def joinSpace : List String → String
  | [] => ""
  | [s] => s
  | s :: rest => s ++ " " ++ joinSpace rest

/-- createQueryString generates the query text from a schema. -/
def createQueryString (schema : GraphQLSchema) : Except String String :=
  match schema.query with
  | none => Except.error "Schema has no query type defined"
  | some queryType =>
    Except.ok ("query\x7b" ++ joinSpace (queryType.fields.map Prod.fst) ++ "\x7d")

/-- JS string interpolation of an optional record member: an absent entry is
`undefined`, rendered as the string `undefined`. -/
def jsStringOfLookup : Option FieldValue → String
  | some v => v
  | none => "undefined"

/-- Sequential effectful map: JS `Array.prototype.map` with a callback that
may throw (the first throw propagates). -/
def exceptMapM (f : α → Except ε β) : List α → Except ε (List β)
  | [] => Except.ok []
  | a :: l => do
    let b ← f a
    let bs ← exceptMapM f l
    Except.ok (b :: bs)

/-- The per-slot fragment builder inside createMutationString.  Note the JS
falsy test `if (!queryFieldName)`: both a missing pairing and an empty-string
source key throw; a missing queryResults entry does NOT throw, it renders
as `undefined`. -/
def buildFrag (fieldMappings : List MappedField) (queryResults : List (String × FieldValue))
    (p : String × MappedField) : Except String String :=
  match findQueryFieldName fieldMappings p.1 with
  | none => Except.error ("Could not find query field for mutation field: " ++ p.1)
  | some q =>
    if q = "" then
      Except.error ("Could not find query field for mutation field: " ++ p.1)
    else
      Except.ok (p.1 ++ "(resolvedQuery:\"" ++ jsStringOfLookup (List.lookup q queryResults) ++ "\")")

/-- createMutationString generates the mutation text from a schema, the field
mappings and resolved query results. -/
def createMutationString (schema : GraphQLSchema) (fieldMappings : List MappedField)
    (queryResults : List (String × FieldValue)) : Except String String :=
  match schema.mutation with
  | none => Except.error "Schema has no mutation type defined"
  | some mutationType => do
    let frags ← exceptMapM (buildFrag fieldMappings queryResults) mutationType.fields
    Except.ok ("mutation\x7b" ++ joinSpace frags ++ "\x7d")

/-- The shape of one generated mutation fragment: the pair of a mutation
slot name and the interpolated value, rendered as the text generator does. -/
def mutFrag (p : String × String) : String :=
  p.1 ++ "(resolvedQuery:\"" ++ p.2 ++ "\")"

/-- GraphQL name characters after the first. -/
def isNameChar (c : Char) : Bool := c.isAlphanum || c == '_'

/-- GraphQL name start characters. -/
def isNameStart (c : Char) : Bool := c.isAlpha || c == '_'

/-- GraphQL `Name` lexical rule. -/
def isGraphQLName (s : String) : Bool :=
  match s.data with
  | [] => false
  | c :: cs => isNameStart c && cs.all isNameChar

/-- Span off a maximal run of name characters. -/
def takeName : List Char → List Char × List Char
  | [] => ([], [])
  | c :: cs =>
    if isNameChar c then
      let p := takeName cs
      (c :: p.1, p.2)
    else ([], c :: cs)

/-- Consume an expected literal sequence of characters. -/
def dropPre : List Char → List Char → Option (List Char)
  | [], s => some s
  | _ :: _, [] => none
  | p :: ps, c :: cs => if p == c then dropPre ps cs else none

/-- A character the GraphQL lexer accepts inside the generated `"` literals
without altering the round trip: not a quote, backslash or raw newline. -/
def badLitChar (c : Char) : Bool :=
  c == '"' || c == '\\' || c == '\n' || c == '\r'

/-- Lex a string literal body: stop before the closing quote; a backslash or
raw newline is a lexing error (the generator never escapes). -/
def takeStringLit : List Char → Option (List Char × List Char)
  | [] => none
  | c :: cs =>
    if c == '"' then some ([], c :: cs)
    else if c == '\\' || c == '\n' || c == '\r' then none
    else (takeStringLit cs).map (fun p => (c :: p.1, p.2))

/-- Lex one field name: a maximal nonempty run of name characters that is a
valid GraphQL name. -/
def parseOneName (s : List Char) : Option (String × List Char) :=
  let p := takeName s
  if isGraphQLName (String.mk p.1) then some (String.mk p.1, p.2) else none

/-- Parse the body of a generated query operation: space-separated names
terminated by the closing brace. -/
def parseNames (fuel : Nat) (s : List Char) : Option (List String) :=
  match fuel with
  | 0 => none
  | fuel + 1 =>
    match parseOneName s with
    | none => none
    | some (n, rest) =>
      match rest with
      | ['\x7d'] => some [n]
      | ' ' :: rest2 => (parseNames fuel rest2).map (n :: ·)
      | _ => none

/-- Parse one generated mutation fragment `name(resolvedQuery:"value")`. -/
def parseOneFrag (s : List Char) : Option ((String × String) × List Char) :=
  (parseOneName s).bind fun nr =>
    (dropPre "(resolvedQuery:\"".data nr.2).bind fun rest2 =>
      (takeStringLit rest2).bind fun vr =>
        (dropPre "\")".data vr.2).map fun rest4 => ((nr.1, String.mk vr.1), rest4)

/-- Parse the body of a generated mutation operation: space-separated
`name(resolvedQuery:"value")` fragments terminated by the closing brace. -/
def parseMutFields (fuel : Nat) (s : List Char) : Option (List (String × String)) :=
  match fuel with
  | 0 => none
  | fuel + 1 =>
    match parseOneFrag s with
    | none => none
    | some (pair, rest) =>
      match rest with
      | ['\x7d'] => some [pair]
      | ' ' :: rest5 => (parseMutFields fuel rest5).map (pair :: ·)
      | _ => none

/-- Execute one query slot: look the field up in the root query type and
invoke the shared resolver on the captured source key. -/
def runQueryField (qt : QueryType) (n : String) : Except String (String × FieldValue) :=
  match List.lookup n qt.fields with
  | none => Except.error ("Cannot query field " ++ n)
  | some f =>
    match qt.resolver with
    | none => Except.error "resolver is not a function"
    | some r =>
      match r f.sourceField.key with
      | Except.ok v => Except.ok (n, v)
      | Except.error e => Except.error e

/-- Execute one mutation slot: look the field up in the root mutation type
and invoke the shared resolver on the captured target key and the parsed
`resolvedQuery` argument. -/
def runMutationField (mt : MutationType) (p : String × String) :
    Except String (String × FieldValue) :=
  match List.lookup p.1 mt.fields with
  | none => Except.error ("Cannot query field " ++ p.1)
  | some f =>
    match mt.resolver with
    | none => Except.error "resolver is not a function"
    | some r =>
      match r f.targetField.key p.2 with
      | Except.ok v => Except.ok (p.1, v)
      | Except.error e => Except.error e

/-- Execute the body of a query operation against the schema's root query
type: parse the selection, then dispatch each slot's resolver. -/
def execQueryBody (schema : GraphQLSchema) (body : List Char) :
    Except String (List (String × FieldValue)) :=
  match schema.query with
  | none => Except.error "Query root type must be provided"
  | some qt =>
    match parseNames body.length body with
    | none => Except.error "Syntax Error"
    | some names => exceptMapM (runQueryField qt) names

/-- Execute the body of a mutation operation against the schema's root
mutation type: parse the fragments, then dispatch each slot's resolver on
its parsed `resolvedQuery` argument. -/
def execMutationBody (schema : GraphQLSchema) (body : List Char) :
    Except String (List (String × FieldValue)) :=
  match schema.mutation with
  | none => Except.error "Schema is not configured for mutations"
  | some mt =>
    match parseMutFields body.length body with
    | none => Except.error "Syntax Error"
    | some pairs => exceptMapM (runMutationField mt) pairs

/-- The graphql entry point, restricted to the operation grammar the two
text generators emit: parse, validate field names against the relevant root
type, dispatch resolvers, and collect keyed results (errors collapse the
phase, as `resolveSource`/`resolveTarget` re-throw on any `errors`). -/
def graphqlExec (schema : GraphQLSchema) (source : String) :
    Except String (List (String × FieldValue)) :=
  match dropPre "query\x7b".data source.data with
  | some body => execQueryBody schema body
  | none =>
    match dropPre "mutation\x7b".data source.data with
    | some body => execMutationBody schema body
    | none => Except.error "Syntax Error"

/-- resolveSource resolves the source integration query to a data record. -/
def resolveSource (process : Process) : Except String (List (String × FieldValue)) := do
  let query ← createQueryString process.schema
  match graphqlExec process.schema query with
  | Except.error e => Except.error ("Query execution failed: " ++ e)
  | Except.ok d => Except.ok d

/-- resolveTarget resolves the target integration mutation from pre-resolved
query results. -/
def resolveTarget (process : Process) (queryResults : List (String × FieldValue)) :
    Except String (List (String × FieldValue)) := do
  let mutation ← createMutationString process.schema process.options.fields queryResults
  match graphqlExec process.schema mutation with
  | Except.error e => Except.error ("Mutation execution failed: " ++ e)
  | Except.ok d => Except.ok d

/-- JS `new Set(l).size`: the number of distinct elements of `l`. -/
def countDistinct : List String → Nat
  | [] => 0
  | x :: xs => if x ∈ xs then countDistinct xs else countDistinct xs + 1

/-- validateProcess checks the structural invariants of a process, returning
false (after one diagnostic, not modelled) on the first failed invariant. -/
def validateProcess (process : Process) : Bool :=
  let fields := process.options.fields
  if ¬ (fields.length > 0) then false
  else if ¬ (fields.length = countDistinct (fields.map (fun f => f.sourceField.key))) then false
  else if ¬ (fields.length = countDistinct (fields.map (fun f => f.targetField.key))) then false
  else if ¬ process.options.sourceIntegration.resolveQuery.isSome then false
  else if ¬ process.options.targetIntegration.resolveMutation.isSome then false
  else if ¬ process.schema.query.isSome then false
  else if ¬ process.schema.mutation.isSome then false
  else if ¬ ((process.schema.query.map (fun qt => qt.fields.length)).getD 0 =
             (process.schema.mutation.map (fun mt => mt.fields.length)).getD 0) then false
  else true

/-- createProcess generates a Process from ProcessOptions, throwing when the
generated process fails validation. -/
def createProcess (options : ProcessOptions) : Except String Process :=
  let process : Process :=
    { options := options
      schema := createSchema options.fields options.sourceIntegration options.targetIntegration }
  if validateProcess process then Except.ok process
  else Except.error "Invalid process"

/-- sync synchronizes a given process; every internal failure is caught and
converted into `none`. -/
def sync (process : Process) : Option (List (String × FieldValue)) :=
  if ¬ validateProcess process then none
  else
    match resolveSource process with
    | Except.error _ => none
    | Except.ok queryResults =>
      match resolveTarget process queryResults with
      | Except.error _ => none
      | Except.ok mutationResults => some mutationResults

/-! ### Helper lemmas: distinct counting (`new Set(...).size`) -/

theorem countDistinct_le (l : List String) : countDistinct l ≤ l.length := by
  induction l with
  | nil => simp [countDistinct]
  | cons x xs ih =>
    simp only [countDistinct, List.length_cons]
    split <;> omega

theorem countDistinct_eq_iff (l : List String) :
    countDistinct l = l.length ↔ l.Nodup := by
  induction l with
  | nil => simp [countDistinct]
  | cons x xs ih =>
    simp only [countDistinct, List.length_cons, List.nodup_cons]
    by_cases hx : x ∈ xs
    · have hle := countDistinct_le xs
      simp only [if_pos hx]
      constructor
      · intro h; omega
      · rintro ⟨hx', _⟩; exact absurd hx hx'
    · simp only [if_neg hx]
      constructor
      · intro h; exact ⟨hx, ih.mp (by omega)⟩
      · rintro ⟨_, hnd⟩; have := ih.mpr hnd; omega

theorem not_nodup_countDistinct {l : List String} (h : ¬ l.Nodup) :
    ¬ (l.length = countDistinct l) := by
  intro he
  exact h ((countDistinct_eq_iff l).mp he.symm)

theorem not_nodup_ne_nil {l : List String} (h : ¬ l.Nodup) : l ≠ [] := by
  rintro rfl
  exact h List.nodup_nil

/-! ### Helper lemmas: JS object spread (`jsUpsert` / `jsObjectFromEntries`) -/

theorem lookup_cons_pos {α : Type} (k : String) (v : α) (l : List (String × α))
    (n : String) (h : n = k) : List.lookup n ((k, v) :: l) = some v := by
  subst h
  simp [List.lookup_cons]

theorem lookup_cons_neg {α : Type} (k : String) (v : α) (l : List (String × α))
    (n : String) (h : n ≠ k) : List.lookup n ((k, v) :: l) = List.lookup n l := by
  simp [List.lookup_cons, beq_eq_false_iff_ne.mpr h]

theorem lookup_map_replace {α : Type} (acc : List (String × α)) (k : String) (v : α)
    (n : String) (hn : n ≠ k) :
    List.lookup n (acc.map (fun p => if p.1 = k then (p.1, v) else p)) =
      List.lookup n acc := by
  induction acc with
  | nil => rfl
  | cons p acc ih =>
    obtain ⟨pk, pv⟩ := p
    by_cases hpk : pk = k
    · rw [List.map_cons]
      simp only [if_pos hpk]
      rw [lookup_cons_neg _ _ _ _ (hpk ▸ hn), lookup_cons_neg _ _ _ _ (hpk ▸ hn), ih]
    · rw [List.map_cons]
      simp only [if_neg hpk]
      by_cases hnp : n = pk
      · rw [lookup_cons_pos _ _ _ _ hnp, lookup_cons_pos _ _ _ _ hnp]
      · rw [lookup_cons_neg _ _ _ _ hnp, lookup_cons_neg _ _ _ _ hnp, ih]

theorem jsUpsert_keys {α : Type} (acc : List (String × α)) (e : String × α) :
    (jsUpsert acc e).map Prod.fst =
      if acc.any (fun p => p.1 == e.1) then acc.map Prod.fst
      else acc.map Prod.fst ++ [e.1] := by
  unfold jsUpsert
  split
  · rw [List.map_map]
    apply List.map_congr_left
    intro p _
    by_cases h : p.1 = e.1 <;> simp [h]
  · simp

theorem lookup_eq_none_of_keys_ne {α : Type} (acc : List (String × α)) (n : String)
    (h : ∀ p ∈ acc, p.1 ≠ n) : List.lookup n acc = none := by
  induction acc with
  | nil => rfl
  | cons q acc ih =>
    obtain ⟨qk, qv⟩ := q
    rw [lookup_cons_neg _ _ _ _ (fun hc => h (qk, qv) (List.mem_cons_self _ _) hc.symm)]
    exact ih (fun p hp => h p (List.mem_cons_of_mem _ hp))

theorem lookup_map_replace_self {α : Type} (acc : List (String × α)) (k : String) (v : α)
    (h : ∃ p ∈ acc, p.1 = k) :
    List.lookup k (acc.map (fun p => if p.1 = k then (p.1, v) else p)) = some v := by
  induction acc with
  | nil => obtain ⟨p, hp, _⟩ := h; cases hp
  | cons q acc ih =>
    obtain ⟨qk, qv⟩ := q
    rw [List.map_cons]
    by_cases hqk : qk = k
    · simp only [if_pos hqk]
      exact lookup_cons_pos _ _ _ _ hqk.symm
    · simp only [if_neg hqk]
      rw [lookup_cons_neg _ _ _ _ (fun hc => hqk hc.symm)]
      apply ih
      obtain ⟨p, hp, hpk⟩ := h
      rcases List.mem_cons.mp hp with hp | hp
      · exact absurd (by rw [hp] at hpk; exact hpk) hqk
      · exact ⟨p, hp, hpk⟩

theorem lookup_jsUpsert {α : Type} (acc : List (String × α)) (e : String × α)
    (n : String) :
    List.lookup n (jsUpsert acc e) =
      if n = e.1 then some e.2 else List.lookup n acc := by
  unfold jsUpsert
  cases hany : acc.any (fun p => p.1 == e.1) with
  | true =>
    rw [if_pos rfl]
    by_cases hn : n = e.1
    · rw [if_pos hn]
      subst hn
      apply lookup_map_replace_self
      rw [List.any_eq_true] at hany
      obtain ⟨p, hp, hpe⟩ := hany
      exact ⟨p, hp, beq_iff_eq.mp hpe⟩
    · rw [if_neg hn]
      exact lookup_map_replace acc e.1 e.2 n hn
  | false =>
    rw [if_neg (by simp [hany])]
    rw [List.any_eq_false] at hany
    rw [List.lookup_append]
    by_cases hn : n = e.1
    · rw [if_pos hn]
      have hnone : List.lookup n acc = none :=
        lookup_eq_none_of_keys_ne acc n
          (fun p hp hc => hany p hp (beq_iff_eq.mpr (hc.trans hn)))
      rw [hnone, Option.none_or]
      obtain ⟨ek, ev⟩ := e
      exact lookup_cons_pos _ _ _ _ hn
    · rw [if_neg hn]
      have : List.lookup n [e] = none := by
        obtain ⟨ek, ev⟩ := e
        rw [lookup_cons_neg _ _ _ _ hn]
        rfl
      rw [this, Option.or_none]

theorem nodup_keys_jsUpsert {α : Type} {acc : List (String × α)} (e : String × α)
    (h : (acc.map Prod.fst).Nodup) : ((jsUpsert acc e).map Prod.fst).Nodup := by
  rw [jsUpsert_keys]
  cases hany : acc.any (fun p => p.1 == e.1) with
  | true => simpa using h
  | false =>
    rw [List.any_eq_false] at hany
    have hmem : e.1 ∉ acc.map Prod.fst := by
      rw [List.mem_map]
      rintro ⟨p, hp, hpe⟩
      exact hany p hp (by simp [hpe])
    rw [if_neg (by decide : ¬ (false = true)), List.nodup_append]
    exact ⟨h, List.nodup_singleton _, by simpa [List.disjoint_singleton] using hmem⟩

theorem nodup_keys_foldl {α : Type} (l : List (String × α)) :
    ∀ acc : List (String × α), (acc.map Prod.fst).Nodup →
      ((l.foldl jsUpsert acc).map Prod.fst).Nodup := by
  induction l with
  | nil => intro acc h; simpa using h
  | cons e l ih =>
    intro acc h
    exact ih (jsUpsert acc e) (nodup_keys_jsUpsert e h)

theorem jsObject_keys_nodup {α : Type} (l : List (String × α)) :
    ((jsObjectFromEntries l).map Prod.fst).Nodup :=
  nodup_keys_foldl l [] (by simp)

theorem foldl_jsUpsert_id {α : Type} (l : List (String × α)) :
    ∀ acc : List (String × α), (acc.map Prod.fst ++ l.map Prod.fst).Nodup →
      l.foldl jsUpsert acc = acc ++ l := by
  induction l with
  | nil => intro acc _; simp
  | cons e l ih =>
    intro acc h
    have hnotmem : e.1 ∉ acc.map Prod.fst := by
      rw [List.map_cons, List.nodup_append] at h
      intro hmem
      exact h.2.2 hmem (by simp)
    have hup : jsUpsert acc e = acc ++ [e] := by
      have hany : acc.any (fun p => p.1 == e.1) = false := by
        rw [List.any_eq_false]
        intro p hp hbe
        exact hnotmem (List.mem_map.mpr ⟨p, hp, beq_iff_eq.mp hbe⟩)
      simp [jsUpsert, hany]
    rw [List.foldl_cons, hup, ih (acc ++ [e]) (by simpa using h)]
    simp

theorem jsObject_eq_self {α : Type} (l : List (String × α))
    (h : (l.map Prod.fst).Nodup) : jsObjectFromEntries l = l := by
  simpa using foldl_jsUpsert_id l [] (by simpa using h)

theorem lookup_foldl_jsUpsert {α : Type} (l : List (String × α)) :
    ∀ (acc : List (String × α)) (n : String),
      List.lookup n (l.foldl jsUpsert acc) =
        ((l.reverse.find? (fun p => p.1 == n)).map Prod.snd).or (List.lookup n acc) := by
  induction l with
  | nil => intro acc n; simp
  | cons e l ih =>
    intro acc n
    rw [List.foldl_cons, ih (jsUpsert acc e) n, List.reverse_cons, List.find?_append,
      lookup_jsUpsert acc e n]
    cases hfind : l.reverse.find? (fun p => p.1 == n) with
    | some p => simp
    | none =>
      by_cases hne : n = e.1
      · rw [if_pos hne]
        have : (e.1 == n) = true := beq_iff_eq.mpr hne.symm
        simp [List.find?_cons, this]
      · rw [if_neg hne]
        have : (e.1 == n) = false := beq_eq_false_iff_ne.mpr (fun hc => hne hc.symm)
        simp [List.find?_cons, this]

theorem jsObject_lookup {α : Type} (l : List (String × α)) (n : String) :
    List.lookup n (jsObjectFromEntries l) =
      (l.reverse.find? (fun p => p.1 == n)).map Prod.snd := by
  rw [jsObjectFromEntries, lookup_foldl_jsUpsert l [] n]
  simp

/-! ### Helper lemmas: GraphQL names and parser primitives -/

theorem isNameStart_isNameChar {c : Char} (h : isNameStart c = true) :
    isNameChar c = true := by
  rcases Bool.or_eq_true_iff.mp h with h' | h'
  · simp [isNameChar, Char.isAlphanum, h']
  · simp [isNameChar, h']

theorem isGraphQLName_data_all {s : String} (h : isGraphQLName s = true) :
    ∀ c ∈ s.data, isNameChar c = true := by
  unfold isGraphQLName at h
  intro a ha
  cases hs : s.data with
  | nil => rw [hs] at ha; cases ha
  | cons c cs =>
    rw [hs] at h ha
    rcases Bool.and_eq_true_iff.mp h with ⟨h1, h2⟩
    rcases List.mem_cons.mp ha with rfl | ha'
    · exact isNameStart_isNameChar h1
    · exact List.all_eq_true.mp h2 a ha'

theorem isGraphQLName_ne_nil {s : String} (h : isGraphQLName s = true) :
    s.data ≠ [] := by
  intro hc
  unfold isGraphQLName at h
  rw [hc] at h
  cases h

theorem strMk_data (s : String) : String.mk s.data = s := rfl

theorem takeName_eq (nm : List Char) (c : Char) (rest : List Char)
    (h1 : ∀ a ∈ nm, isNameChar a = true) (h2 : isNameChar c = false) :
    takeName (nm ++ c :: rest) = (nm, c :: rest) := by
  induction nm with
  | nil => simp [takeName, h2]
  | cons a nm ih =>
    have ha : isNameChar a = true := h1 a (List.mem_cons_self _ _)
    rw [List.cons_append]
    simp only [takeName, ha, if_pos]
    rw [ih (fun b hb => h1 b (List.mem_cons_of_mem _ hb))]

theorem dropPre_append (xs ys : List Char) : dropPre xs (xs ++ ys) = some ys := by
  induction xs with
  | nil => rfl
  | cons x xs ih => simp [dropPre, ih]

theorem takeStringLit_eq (v rest : List Char)
    (h : ∀ a ∈ v, badLitChar a = false) :
    takeStringLit (v ++ '"' :: rest) = some (v, '"' :: rest) := by
  induction v with
  | nil => simp [takeStringLit]
  | cons a v ih =>
    have ha := h a (List.mem_cons_self _ _)
    simp only [badLitChar, Bool.or_eq_false_iff] at ha
    obtain ⟨⟨⟨h1, h2⟩, h3⟩, h4⟩ := ha
    rw [List.cons_append]
    simp only [takeStringLit, h1, h2, h3, h4]
    rw [ih (fun b hb => h b (List.mem_cons_of_mem _ hb))]
    rfl

theorem joinSpace_cons₂ (a b : String) (l : List String) :
    joinSpace (a :: b :: l) = a ++ " " ++ joinSpace (b :: l) := rfl

theorem joinSpace_close_length (names : List String)
    (h : ∀ n ∈ names, n.data ≠ []) :
    names.length ≤ (joinSpace names ++ "\x7d").data.length := by
  induction names with
  | nil => simp
  | cons n names ih =>
    have hn : 0 < n.data.length :=
      List.length_pos.mpr (h n (List.mem_cons_self _ _))
    cases names with
    | nil =>
      simp only [joinSpace, String.data_append, List.length_append, List.length_cons]
      simp
    | cons m names' =>
      have hIH := ih (fun x hx => h x (List.mem_cons_of_mem _ hx))
      rw [joinSpace_cons₂]
      simp only [String.data_append, List.length_append, List.length_cons] at hIH ⊢
      omega

/-! ### Helper lemmas: keyed lookup and find? -/

theorem lookup_map_key {α β : Type} (l : List α) (key : α → String) (val : α → β)
    (h : (l.map key).Nodup) (a : α) (ha : a ∈ l) :
    List.lookup (key a) (l.map (fun x => (key x, val x))) = some (val a) := by
  induction l with
  | nil => cases ha
  | cons x l ih =>
    rw [List.map_cons, List.nodup_cons] at h
    rw [List.map_cons]
    rcases List.mem_cons.mp ha with rfl | ha'
    · exact lookup_cons_pos _ _ _ _ rfl
    · have hne : key a ≠ key x := fun hc =>
        h.1 (hc ▸ List.mem_map.mpr ⟨a, ha', rfl⟩)
      rw [lookup_cons_neg _ _ _ _ hne]
      exact ih h.2 ha'

theorem find?_key_self {α : Type} (l : List α) (key : α → String)
    (h : (l.map key).Nodup) (a : α) (ha : a ∈ l) :
    l.find? (fun x => key a == key x) = some a := by
  induction l with
  | nil => cases ha
  | cons x l ih =>
    rw [List.map_cons, List.nodup_cons] at h
    rcases List.mem_cons.mp ha with rfl | ha'
    · simp [List.find?_cons]
    · have hne : key a ≠ key x := fun hc =>
        h.1 (hc ▸ List.mem_map.mpr ⟨a, ha', rfl⟩)
      have : (key a == key x) = false := beq_eq_false_iff_ne.mpr hne
      simp only [List.find?_cons, this]
      exact ih h.2 ha'

theorem find?_count_one {α : Type} (l : List α) (key : α → String) (k : String)
    (h : (l.map key).count k = 1) :
    ∃ a, l.find? (fun x => k == key x) = some a ∧ key a = k ∧ a ∈ l ∧
      (∀ b ∈ l, key b = k → b = a) := by
  induction l with
  | nil => simp at h
  | cons x l ih =>
    rw [List.map_cons, List.count_cons] at h
    by_cases hx : key x = k
    · have hc0 : (l.map key).count k = 0 := by
        rw [if_pos (beq_iff_eq.mpr hx)] at h
        omega
      have hnot : k ∉ l.map key := List.count_eq_zero.mp hc0
      refine ⟨x, ?_, hx, List.mem_cons_self _ _, ?_⟩
      · have : (k == key x) = true := beq_iff_eq.mpr hx.symm
        simp [List.find?_cons, this]
      · intro b hb hbk
        rcases List.mem_cons.mp hb with rfl | hb'
        · rfl
        · exact absurd (List.mem_map.mpr ⟨b, hb', hbk⟩) hnot
    · rw [if_neg (by simpa using hx)] at h
      simp only [Nat.add_zero] at h
      obtain ⟨a, hfind, hk, hmem, huniq⟩ := ih h
      have hne : (k == key x) = false :=
        beq_eq_false_iff_ne.mpr (fun hc => hx hc.symm)
      refine ⟨a, ?_, hk, List.mem_cons_of_mem _ hmem, ?_⟩
      · simp only [List.find?_cons, hne]
        exact hfind
      · intro b hb hbk
        rcases List.mem_cons.mp hb with rfl | hb'
        · exact absurd hbk hx
        · exact huniq b hb' hbk

/-! ### Helper lemmas: `exceptMapM` -/

theorem exceptMapM_ok {α β ε : Type} (f : α → Except ε β) (g : α → β) :
    ∀ l : List α, (∀ a ∈ l, f a = Except.ok (g a)) →
      exceptMapM f l = Except.ok (l.map g) := by
  intro l
  induction l with
  | nil => intro _; rfl
  | cons a l ih =>
    intro h
    rw [List.map_cons]
    simp only [exceptMapM]
    rw [h a (List.mem_cons_self _ _), ih (fun b hb => h b (List.mem_cons_of_mem _ hb))]
    rfl

theorem exceptMapM_first_error {α β ε : Type} (f : α → Except ε β) :
    ∀ l : List α, (∃ a ∈ l, ∃ e, f a = Except.error e) →
      ∃ a ∈ l, ∃ e, f a = Except.error e ∧ exceptMapM f l = Except.error e := by
  intro l
  induction l with
  | nil => rintro ⟨a, ha, _⟩; cases ha
  | cons a l ih =>
    rintro ⟨c, hc, e, hce⟩
    cases hfa : f a with
    | error e' =>
      refine ⟨a, List.mem_cons_self _ _, e', hfa, ?_⟩
      simp only [exceptMapM]
      rw [hfa]
      rfl
    | ok b =>
      rcases List.mem_cons.mp hc with rfl | hc'
      · rw [hfa] at hce; cases hce
      · obtain ⟨a', ha', e', hfe', hmap⟩ := ih ⟨c, hc', e, hce⟩
        refine ⟨a', List.mem_cons_of_mem _ ha', e', hfe', ?_⟩
        simp only [exceptMapM]
        rw [hfa, hmap]
        rfl

/-! ### Helper lemmas: parser round trips on generated text -/

theorem parseOneName_eq (n : String) (c : Char) (rest : List Char)
    (h1 : isGraphQLName n = true) (h2 : isNameChar c = false) :
    parseOneName (n.data ++ c :: rest) = some (n, c :: rest) := by
  unfold parseOneName
  rw [takeName_eq n.data c rest (isGraphQLName_data_all h1) h2]
  simp [strMk_data, h1]

theorem parseNames_last (fuel : Nat) (n : String) (h : isGraphQLName n = true) :
    parseNames (fuel + 1) (n.data ++ ['\x7d']) = some [n] := by
  simp only [parseNames]
  rw [parseOneName_eq n '\x7d' [] h (by decide)]
  rfl

theorem parseNames_step (fuel : Nat) (n : String) (rest : List Char)
    (h : isGraphQLName n = true) :
    parseNames (fuel + 1) (n.data ++ ' ' :: rest) =
      (parseNames fuel rest).map (n :: ·) := by
  simp only [parseNames]
  rw [parseOneName_eq n ' ' rest h (by decide)]
  rfl

theorem parseOneFrag_eq (p : String × String) (tail : List Char)
    (h1 : isGraphQLName p.1 = true)
    (h2 : ∀ a ∈ p.2.data, badLitChar a = false) :
    parseOneFrag ((mutFrag p).data ++ tail) = some (p, tail) := by
  have e1 : ("(resolvedQuery:\"" : String).data =
      '(' :: ['r','e','s','o','l','v','e','d','Q','u','e','r','y',':','\"'] := rfl
  have e2 : ("\")" : String).data = '\"' :: [')'] := rfl
  have hd : (mutFrag p).data ++ tail =
      p.1.data ++ '(' ::
        (['r','e','s','o','l','v','e','d','Q','u','e','r','y',':','\"'] ++
          (p.2.data ++ '\"' :: ')' :: tail)) := by
    simp [mutFrag, String.data_append, e1, e2]
  rw [hd]
  unfold parseOneFrag
  rw [parseOneName_eq p.1 '(' _ h1 (by decide)]
  simp only [Option.some_bind]
  have hpre1 : '(' :: (['r','e','s','o','l','v','e','d','Q','u','e','r','y',':','\"'] ++
      (p.2.data ++ '\"' :: ')' :: tail)) =
      ("(resolvedQuery:\"" : String).data ++ (p.2.data ++ '\"' :: ')' :: tail) := by
    rw [e1]; rfl
  rw [hpre1, dropPre_append]
  simp only [Option.some_bind]
  rw [takeStringLit_eq p.2.data (')' :: tail) h2]
  simp only [Option.some_bind]
  have hpre2 : '\"' :: ')' :: tail = ("\")" : String).data ++ tail := by
    rw [e2]; rfl
  rw [hpre2, dropPre_append]
  simp [strMk_data]

theorem parseMut_last (fuel : Nat) (p : String × String)
    (h1 : isGraphQLName p.1 = true)
    (h2 : ∀ a ∈ p.2.data, badLitChar a = false) :
    parseMutFields (fuel + 1) ((mutFrag p).data ++ ['\x7d']) = some [p] := by
  simp only [parseMutFields]
  rw [parseOneFrag_eq p ['\x7d'] h1 h2]
  rfl

theorem parseMut_step (fuel : Nat) (p : String × String) (rest : List Char)
    (h1 : isGraphQLName p.1 = true)
    (h2 : ∀ a ∈ p.2.data, badLitChar a = false) :
    parseMutFields (fuel + 1) ((mutFrag p).data ++ ' ' :: rest) =
      (parseMutFields fuel rest).map (p :: ·) := by
  simp only [parseMutFields]
  rw [parseOneFrag_eq p (' ' :: rest) h1 h2]
  rfl

theorem parseNames_roundtrip :
    ∀ (names : List String) (fuel : Nat), names ≠ [] →
      (∀ n ∈ names, isGraphQLName n = true) →
      names.length ≤ fuel →
      parseNames fuel ((joinSpace names ++ "\x7d").data) = some names := by
  intro names
  induction names with
  | nil => intro fuel h; exact absurd rfl h
  | cons n names ih =>
    intro fuel _ hall hfuel
    have hn : isGraphQLName n = true := hall n (List.mem_cons_self _ _)
    cases fuel with
    | zero => simp at hfuel
    | succ f =>
      cases names with
      | nil =>
        have hd : ((joinSpace [n] ++ "\x7d").data) = n.data ++ ['\x7d'] := by
          simp [joinSpace, String.data_append]
        rw [hd, parseNames_last f n hn]
      | cons m names' =>
        have hd : ((joinSpace (n :: m :: names') ++ "\x7d").data) =
            n.data ++ ' ' :: ((joinSpace (m :: names') ++ "\x7d").data) := by
          rw [joinSpace_cons₂]
          simp [String.data_append]
        rw [hd, parseNames_step f n _ hn]
        rw [ih f (by simp) (fun x hx => hall x (List.mem_cons_of_mem _ hx))
          (by simpa using Nat.le_of_succ_le_succ hfuel)]
        rfl

theorem parseMut_roundtrip :
    ∀ (pairs : List (String × String)) (fuel : Nat), pairs ≠ [] →
      (∀ p ∈ pairs, isGraphQLName p.1 = true ∧
        ∀ a ∈ p.2.data, badLitChar a = false) →
      pairs.length ≤ fuel →
      parseMutFields fuel ((joinSpace (pairs.map mutFrag) ++ "\x7d").data) =
        some pairs := by
  intro pairs
  induction pairs with
  | nil => intro fuel h; exact absurd rfl h
  | cons p pairs ih =>
    intro fuel _ hall hfuel
    have hp := hall p (List.mem_cons_self _ _)
    cases fuel with
    | zero => simp at hfuel
    | succ f =>
      cases pairs with
      | nil =>
        have hd : ((joinSpace [mutFrag p] ++ "\x7d").data) =
            (mutFrag p).data ++ ['\x7d'] := by
          simp [joinSpace, String.data_append]
        rw [List.map_cons, List.map_nil, hd, parseMut_last f p hp.1 hp.2]
      | cons q pairs' =>
        have hd : ((joinSpace ((p :: q :: pairs').map mutFrag) ++ "\x7d").data) =
            (mutFrag p).data ++
              ' ' :: ((joinSpace ((q :: pairs').map mutFrag) ++ "\x7d").data) := by
          rw [List.map_cons, List.map_cons, joinSpace_cons₂]
          simp [String.data_append]
        rw [hd, parseMut_step f p _ hp.1 hp.2]
        rw [ih f (by simp) (fun x hx => hall x (List.mem_cons_of_mem _ hx))
          (by simpa using Nat.le_of_succ_le_succ hfuel)]
        rfl

/-! ### Helper lemmas: assembling the pipeline -/

theorem bindOk {α β : Type} (a : α) (f : α → Except String β) :
    (Except.ok a : Except String α) >>= f = f a := rfl

/-- A string value that survives the generated-text round trip unchanged:
no double quote, backslash or raw newline. -/
def goodValue (v : String) : Prop := ∀ a ∈ v.data, badLitChar a = false

instance (v : String) : Decidable (goodValue v) := by
  unfold goodValue
  infer_instance

theorem mutFrag_data_ne_nil (p : String × String) : (mutFrag p).data ≠ [] := by
  have : (mutFrag p).data = p.1.data ++
      ("(resolvedQuery:\"" ++ (p.2 ++ "\")")).data := by
    simp [mutFrag, String.data_append]
  rw [this]
  intro hc
  rcases List.append_eq_nil.mp hc with ⟨_, h2⟩
  have : ("(resolvedQuery:\"" ++ (p.2 ++ "\")")).data =
      ("(resolvedQuery:\"" : String).data ++ (p.2 ++ "\")").data := String.data_append _ _
  rw [this] at h2
  rcases List.append_eq_nil.mp h2 with ⟨h3, _⟩
  exact absurd h3 (by decide)

theorem querySchema_fields_of_nodup (fields : List MappedField)
    (r : Option QueryResolver)
    (h : (fields.map (fun f => f.sourceField.key)).Nodup) :
    (createQuerySchema fields r).fields =
      fields.map (fun f => (f.sourceField.key, f)) := by
  unfold createQuerySchema
  apply jsObject_eq_self
  simpa [List.map_map, Function.comp] using h

theorem mutSchema_fields_of_nodup (fields : List MappedField)
    (r : Option MutationResolver)
    (h : (fields.map (fun f => f.targetField.key)).Nodup) :
    (createMutationSchema fields r).fields =
      fields.map (fun f => (f.targetField.key, f)) := by
  unfold createMutationSchema
  apply jsObject_eq_self
  simpa [List.map_map, Function.comp] using h

theorem validateProcess_true_of (process : Process)
    (h1 : process.options.fields ≠ [])
    (h2 : (process.options.fields.map (fun f => f.sourceField.key)).Nodup)
    (h3 : (process.options.fields.map (fun f => f.targetField.key)).Nodup)
    (h4 : process.options.sourceIntegration.resolveQuery.isSome)
    (h5 : process.options.targetIntegration.resolveMutation.isSome)
    (hq : ∃ qt, process.schema.query = some qt ∧
      qt.fields.length = process.options.fields.length)
    (hm : ∃ mt, process.schema.mutation = some mt ∧
      mt.fields.length = process.options.fields.length) :
    validateProcess process = true := by
  obtain ⟨qt, hqt, hqlen⟩ := hq
  obtain ⟨mt, hmt, hmlen⟩ := hm
  have c1 : process.options.fields.length > 0 := List.length_pos.mpr h1
  have c2 : process.options.fields.length =
      countDistinct (process.options.fields.map (fun f => f.sourceField.key)) := by
    have := (countDistinct_eq_iff _).mpr h2
    rw [List.length_map] at this
    exact this.symm
  have c3 : process.options.fields.length =
      countDistinct (process.options.fields.map (fun f => f.targetField.key)) := by
    have := (countDistinct_eq_iff _).mpr h3
    rw [List.length_map] at this
    exact this.symm
  unfold validateProcess
  rw [if_neg (not_not_intro c1), if_neg (not_not_intro c2), if_neg (not_not_intro c3),
    if_neg (not_not_intro h4), if_neg (not_not_intro h5),
    if_neg (not_not_intro (by rw [hqt]; rfl)),
    if_neg (not_not_intro (by rw [hmt]; rfl)),
    if_neg (not_not_intro (by rw [hqt, hmt]; simpa using hqlen.trans hmlen.symm))]

theorem validateProcess_false_of_dup (process : Process)
    (h : ¬ (process.options.fields.map (fun f => f.sourceField.key)).Nodup ∨
         ¬ (process.options.fields.map (fun f => f.targetField.key)).Nodup) :
    validateProcess process = false := by
  unfold validateProcess
  by_cases c1 : process.options.fields.length > 0
  · rw [if_neg (not_not_intro c1)]
    rcases h with h | h
    · have : ¬ (process.options.fields.length =
          countDistinct (process.options.fields.map (fun f => f.sourceField.key))) := by
        have := not_nodup_countDistinct h
        rw [List.length_map] at this
        exact this
      rw [if_pos this]
    · by_cases c2 : process.options.fields.length =
          countDistinct (process.options.fields.map (fun f => f.sourceField.key))
      · rw [if_neg (not_not_intro c2)]
        have : ¬ (process.options.fields.length =
            countDistinct (process.options.fields.map (fun f => f.targetField.key))) := by
          have := not_nodup_countDistinct h
          rw [List.length_map] at this
          exact this
        rw [if_pos this]
      · rw [if_pos c2]
  · rw [if_pos c1]

theorem buildFrag_error_iff (m : List MappedField) (qres : List (String × FieldValue))
    (p : String × MappedField) (e : String) :
    buildFrag m qres p = Except.error e ↔
      (e = "Could not find query field for mutation field: " ++ p.1 ∧
        (findQueryFieldName m p.1 = none ∨ findQueryFieldName m p.1 = some "")) := by
  unfold buildFrag
  cases hf : findQueryFieldName m p.1 with
  | none =>
    show Except.error ("Could not find query field for mutation field: " ++ p.1) =
        Except.error e ↔ _
    constructor
    · intro he
      injection he with h
      exact ⟨h.symm, Or.inl rfl⟩
    · rintro ⟨rfl, _⟩
      rfl
  | some q =>
    show (if q = "" then
        Except.error ("Could not find query field for mutation field: " ++ p.1)
      else
        Except.ok (p.1 ++ "(resolvedQuery:\"" ++
          jsStringOfLookup (List.lookup q qres) ++ "\")")) = Except.error e ↔ _
    by_cases hq : q = ""
    · subst hq
      rw [if_pos rfl]
      constructor
      · intro he
        injection he with h
        exact ⟨h.symm, Or.inr rfl⟩
      · rintro ⟨rfl, _⟩
        rfl
    · rw [if_neg hq]
      constructor
      · intro he; cases he
      · rintro ⟨_, hcase | hcase⟩
        · cases hcase
        · rw [Option.some.injEq] at hcase
          exact absurd hcase hq

theorem exceptMapM_buildFrag_ok (mappings : List MappedField)
    (qres : List (String × FieldValue)) (slots : List (String × MappedField))
    (h : ∀ p ∈ slots, ∃ q, findQueryFieldName mappings p.1 = some q ∧ q ≠ "") :
    exceptMapM (buildFrag mappings qres) slots =
      Except.ok (slots.map (fun p =>
        p.1 ++ "(resolvedQuery:\"" ++
          jsStringOfLookup
            (List.lookup ((findQueryFieldName mappings p.1).getD "") qres) ++ "\")")) := by
  apply exceptMapM_ok
  intro p hp
  obtain ⟨q, hq, hqne⟩ := h p hp
  unfold buildFrag
  rw [hq]
  simp [hqne]

theorem createMutationString_ok (fields mappings : List MappedField)
    (qres : List (String × FieldValue)) (src tgt : Integration)
    (h : ∀ p ∈ (createMutationSchema fields tgt.resolveMutation).fields,
      ∃ q, findQueryFieldName mappings p.1 = some q ∧ q ≠ "") :
    createMutationString (createSchema fields src tgt) mappings qres =
      Except.ok ("mutation\x7b" ++
        joinSpace ((createMutationSchema fields tgt.resolveMutation).fields.map
          (fun p => p.1 ++ "(resolvedQuery:\"" ++
            jsStringOfLookup
              (List.lookup ((findQueryFieldName mappings p.1).getD "") qres) ++ "\")")) ++
        "\x7d") := by
  unfold createMutationString createSchema
  simp only []
  rw [exceptMapM_buildFrag_ok mappings qres _ h]
  rfl

theorem graphqlExec_query_pre (schema : GraphQLSchema) (rest : String) :
    graphqlExec schema ("query\x7b" ++ rest) = execQueryBody schema rest.data := by
  unfold graphqlExec
  rw [String.data_append, dropPre_append]

theorem graphqlExec_mutation_pre (schema : GraphQLSchema) (rest : String) :
    graphqlExec schema ("mutation\x7b" ++ rest) = execMutationBody schema rest.data := by
  unfold graphqlExec
  have h1 : dropPre "query\x7b".data (("mutation\x7b" ++ rest)).data = none := by
    rw [String.data_append]
    rfl
  rw [h1, String.data_append, dropPre_append]

theorem execQueryBody_eq (schema : GraphQLSchema) (qt : QueryType)
    (hq : schema.query = some qt) (names : List String)
    (hnn : names ≠ []) (hval : ∀ n ∈ names, isGraphQLName n = true) :
    execQueryBody schema ((joinSpace names ++ "\x7d").data) =
      exceptMapM (runQueryField qt) names := by
  have hfuel : names.length ≤ (joinSpace names ++ "\x7d").data.length :=
    joinSpace_close_length names (fun n hn => isGraphQLName_ne_nil (hval n hn))
  unfold execQueryBody
  rw [hq]
  show (match parseNames ((joinSpace names ++ "\x7d")).data.length
      ((joinSpace names ++ "\x7d")).data with
    | none => Except.error "Syntax Error"
    | some ns => exceptMapM (runQueryField qt) ns) = _
  rw [parseNames_roundtrip names _ hnn hval hfuel]

theorem execMutationBody_eq (schema : GraphQLSchema) (mt : MutationType)
    (hm : schema.mutation = some mt) (pairs : List (String × String))
    (hnn : pairs ≠ [])
    (hval : ∀ p ∈ pairs, isGraphQLName p.1 = true ∧
      ∀ a ∈ p.2.data, badLitChar a = false) :
    execMutationBody schema ((joinSpace (pairs.map mutFrag) ++ "\x7d").data) =
      exceptMapM (runMutationField mt) pairs := by
  have hfuel : pairs.length ≤ (joinSpace (pairs.map mutFrag) ++ "\x7d").data.length := by
    have hj := joinSpace_close_length (pairs.map mutFrag) (fun s hs => by
      obtain ⟨p, hp, rfl⟩ := List.mem_map.mp hs
      exact mutFrag_data_ne_nil p)
    simpa using hj
  unfold execMutationBody
  rw [hm]
  show (match parseMutFields ((joinSpace (pairs.map mutFrag) ++ "\x7d")).data.length
      ((joinSpace (pairs.map mutFrag) ++ "\x7d")).data with
    | none => Except.error "Syntax Error"
    | some ps => exceptMapM (runMutationField mt) ps) = _
  rw [parseMut_roundtrip pairs _ hnn hval hfuel]

theorem resolveSource_ok (process : Process) (fields : List MappedField)
    (src tgt : Integration) (qv : String → FieldValue)
    (hschema : process.schema = createSchema fields src tgt)
    (hne : fields ≠ [])
    (hsrc : (fields.map (fun f => f.sourceField.key)).Nodup)
    (hnames : ∀ f ∈ fields, isGraphQLName f.sourceField.key = true)
    (hq : src.resolveQuery = some (fun k => Except.ok (qv k))) :
    resolveSource process =
      Except.ok (fields.map (fun f => (f.sourceField.key, qv f.sourceField.key))) := by
  have hqt := querySchema_fields_of_nodup fields src.resolveQuery hsrc
  have hcq : createQueryString (createSchema fields src tgt) =
      Except.ok ("query\x7b" ++
        joinSpace ((createQuerySchema fields src.resolveQuery).fields.map Prod.fst) ++
        "\x7d") := rfl
  have hkeys : (createQuerySchema fields src.resolveQuery).fields.map Prod.fst =
      fields.map (fun f => f.sourceField.key) := by
    rw [hqt, List.map_map]
    rfl
  rw [hkeys] at hcq
  have hnn : fields.map (fun f => f.sourceField.key) ≠ [] := by simpa using hne
  have hvn : ∀ n ∈ fields.map (fun f => f.sourceField.key), isGraphQLName n = true := by
    intro n hn
    obtain ⟨f, hf, rfl⟩ := List.mem_map.mp hn
    exact hnames f hf
  have hper : ∀ n ∈ fields.map (fun f => f.sourceField.key),
      runQueryField (createQuerySchema fields src.resolveQuery) n =
        Except.ok (n, qv n) := by
    intro n hn
    obtain ⟨f, hf, rfl⟩ := List.mem_map.mp hn
    unfold runQueryField
    have hres : (createQuerySchema fields src.resolveQuery).resolver =
        src.resolveQuery := rfl
    rw [hqt, lookup_map_key fields (fun g => g.sourceField.key) (fun g => g) hsrc f hf,
      hres, hq]
  have hex : graphqlExec (createSchema fields src tgt)
      ("query\x7b" ++ joinSpace (fields.map (fun f => f.sourceField.key)) ++ "\x7d") =
      Except.ok (fields.map (fun f => (f.sourceField.key, qv f.sourceField.key))) := by
    rw [String.append_assoc, graphqlExec_query_pre,
      execQueryBody_eq (createSchema fields src tgt)
        (createQuerySchema fields src.resolveQuery) rfl _ hnn hvn,
      exceptMapM_ok (runQueryField (createQuerySchema fields src.resolveQuery))
        (fun n => (n, qv n)) _ hper, List.map_map]
    rfl
  unfold resolveSource
  rw [hschema, hcq, bindOk, hex]

theorem resolveTarget_ok (process : Process) (fields : List MappedField)
    (src tgt : Integration) (qv : String → FieldValue)
    (mv : String → FieldValue → FieldValue)
    (hopts : process.options.fields = fields)
    (hschema : process.schema = createSchema fields src tgt)
    (hne : fields ≠ [])
    (hsrc : (fields.map (fun f => f.sourceField.key)).Nodup)
    (htgt : (fields.map (fun f => f.targetField.key)).Nodup)
    (hnames : ∀ f ∈ fields, isGraphQLName f.targetField.key = true)
    (hsne : ∀ f ∈ fields, f.sourceField.key ≠ "")
    (hm : tgt.resolveMutation = some (fun k v => Except.ok (mv k v)))
    (hgood : ∀ f ∈ fields, goodValue (qv f.sourceField.key)) :
    resolveTarget process
        (fields.map (fun f => (f.sourceField.key, qv f.sourceField.key))) =
      Except.ok (fields.map (fun f =>
        (f.targetField.key, mv f.targetField.key (qv f.sourceField.key)))) := by
  have hmt := mutSchema_fields_of_nodup fields tgt.resolveMutation htgt
  have hfind : ∀ f ∈ fields,
      findQueryFieldName fields f.targetField.key = some f.sourceField.key := by
    intro f hf
    unfold findQueryFieldName
    rw [find?_key_self fields (fun g => g.targetField.key) htgt f hf]
    rfl
  have hslots : ∀ p ∈ (createMutationSchema fields tgt.resolveMutation).fields,
      ∃ q, findQueryFieldName fields p.1 = some q ∧ q ≠ "" := by
    intro p hp
    rw [hmt] at hp
    obtain ⟨f, hf, rfl⟩ := List.mem_map.mp hp
    exact ⟨f.sourceField.key, hfind f hf, hsne f hf⟩
  have hcms := createMutationString_ok fields fields
    (fields.map (fun f => (f.sourceField.key, qv f.sourceField.key))) src tgt hslots
  have hfrag : (createMutationSchema fields tgt.resolveMutation).fields.map
      (fun p => p.1 ++ "(resolvedQuery:\"" ++
        jsStringOfLookup (List.lookup ((findQueryFieldName fields p.1).getD "")
          (fields.map (fun f => (f.sourceField.key, qv f.sourceField.key)))) ++ "\")") =
      (fields.map (fun f => (f.targetField.key, qv f.sourceField.key))).map mutFrag := by
    rw [hmt, List.map_map, List.map_map]
    apply List.map_congr_left
    intro f hf
    show f.targetField.key ++ "(resolvedQuery:\"" ++
        jsStringOfLookup (List.lookup ((findQueryFieldName fields f.targetField.key).getD "")
          (fields.map (fun g => (g.sourceField.key, qv g.sourceField.key)))) ++ "\")" =
      mutFrag (f.targetField.key, qv f.sourceField.key)
    rw [hfind f hf]
    show f.targetField.key ++ "(resolvedQuery:\"" ++
        jsStringOfLookup (List.lookup f.sourceField.key
          (fields.map (fun g => (g.sourceField.key, qv g.sourceField.key)))) ++ "\")" = _
    rw [lookup_map_key fields (fun g => g.sourceField.key)
      (fun g => qv g.sourceField.key) hsrc f hf]
    rfl
  rw [hfrag] at hcms
  have hpnn : fields.map (fun f => (f.targetField.key, qv f.sourceField.key)) ≠ [] := by
    simpa using hne
  have hpval : ∀ p ∈ fields.map (fun f => (f.targetField.key, qv f.sourceField.key)),
      isGraphQLName p.1 = true ∧ ∀ a ∈ p.2.data, badLitChar a = false := by
    intro p hp
    obtain ⟨f, hf, rfl⟩ := List.mem_map.mp hp
    exact ⟨hnames f hf, hgood f hf⟩
  have hper : ∀ p ∈ fields.map (fun f => (f.targetField.key, qv f.sourceField.key)),
      runMutationField (createMutationSchema fields tgt.resolveMutation) p =
        Except.ok (p.1, mv p.1 p.2) := by
    intro p hp
    obtain ⟨f, hf, rfl⟩ := List.mem_map.mp hp
    unfold runMutationField
    have hres : (createMutationSchema fields tgt.resolveMutation).resolver =
        tgt.resolveMutation := rfl
    rw [hmt, lookup_map_key fields (fun g => g.targetField.key) (fun g => g) htgt f hf,
      hres, hm]
  have hex : graphqlExec (createSchema fields src tgt)
      ("mutation\x7b" ++
        joinSpace ((fields.map (fun f => (f.targetField.key, qv f.sourceField.key))).map
          mutFrag) ++ "\x7d") =
      Except.ok (fields.map (fun f =>
        (f.targetField.key, mv f.targetField.key (qv f.sourceField.key)))) := by
    rw [String.append_assoc, graphqlExec_mutation_pre,
      execMutationBody_eq (createSchema fields src tgt)
        (createMutationSchema fields tgt.resolveMutation) rfl _ hpnn hpval,
      exceptMapM_ok (runMutationField (createMutationSchema fields tgt.resolveMutation))
        (fun p => (p.1, mv p.1 p.2)) _ hper, List.map_map]
    rfl
  unfold resolveTarget
  rw [hschema, hopts, hcms, bindOk, hex]

/-! ### Concrete fixtures (mirroring the repository's test mocks) -/

def mockSource : Integration :=
  { name := "source"
    description := "source integration"
    resolveQuery := some (fun k => Except.ok ("source_" ++ k ++ "_value"))
    resolveMutation := some (fun k v => Except.ok ("mutated_" ++ k ++ "_" ++ v)) }

def mockTarget : Integration :=
  { name := "target"
    description := "target integration"
    resolveQuery := some (fun k => Except.ok ("target_" ++ k ++ "_value"))
    resolveMutation := some (fun k v => Except.ok ("mutated_" ++ k ++ "_" ++ v)) }

def mockFields : List MappedField :=
  [ { sourceField := { key := "name", type := FieldType.string }
      targetField := { key := "fullName", type := FieldType.string } },
    { sourceField := { key := "age", type := FieldType.number }
      targetField := { key := "userAge", type := FieldType.number } } ]

def mockOptions : ProcessOptions :=
  { fields := mockFields
    sourceIntegration := mockSource
    targetIntegration := mockTarget }

def mockProcess : Process :=
  { options := mockOptions
    schema := createSchema mockFields mockSource mockTarget }

def sharedKeyFields : List MappedField :=
  [ { sourceField := { key := "k", type := FieldType.string }
      targetField := { key := "k", type := FieldType.string } } ]

def sharedKeyProcess : Process :=
  { options :=
      { fields := sharedKeyFields
        sourceIntegration := mockSource
        targetIntegration := mockTarget }
    schema := createSchema sharedKeyFields mockSource mockTarget }

def dupSourceFields : List MappedField :=
  [ { sourceField := { key := "name", type := FieldType.string }
      targetField := { key := "a", type := FieldType.string } },
    { sourceField := { key := "name", type := FieldType.string }
      targetField := { key := "b", type := FieldType.string } } ]

def dupSourceProcess : Process :=
  { options :=
      { fields := dupSourceFields
        sourceIntegration := mockSource
        targetIntegration := mockTarget }
    schema := createSchema dupSourceFields mockSource mockTarget }

/-! ### Claim theorems -/

/-- C4: for every schema built from a mapping list, `createQueryString`
returns exactly `query{` followed by the query slot names in field-list
order, single-space separated with no trailing space, followed by `}`
(for a duplicate-free mapping list the slot names are precisely the
source keys in list order); it fails with the schema error when the
schema has no query slot-set. -/
theorem createQueryString_spec :
    (∀ (fields : List MappedField) (src tgt : Integration),
      createQueryString (createSchema fields src tgt) =
        Except.ok ("query\x7b" ++
          joinSpace ((createQuerySchema fields src.resolveQuery).fields.map Prod.fst) ++
          "\x7d")) ∧
    (∀ (fields : List MappedField) (r : Option QueryResolver),
      (fields.map (fun f => f.sourceField.key)).Nodup →
      (createQuerySchema fields r).fields.map Prod.fst =
        fields.map (fun f => f.sourceField.key)) ∧
    (∀ schema : GraphQLSchema, schema.query = none →
      createQueryString schema = Except.error "Schema has no query type defined") := by
  refine ⟨fun fields src tgt => rfl, fun fields r h => ?_, fun schema h => ?_⟩
  · rw [querySchema_fields_of_nodup fields r h, List.map_map]
    rfl
  · unfold createQueryString
    rw [h]

/-- Witness for C4 at the repository's test scenario: the generated query
text is exactly `query{name age}`. -/
theorem createQueryString_spec_witness :
    createQueryString (createSchema mockFields mockSource mockTarget) =
      Except.ok "query\x7bname age\x7d" := by
  have h := createQueryString_spec.1 mockFields mockSource mockTarget
  rw [createQueryString_spec.2.1 mockFields mockSource.resolveQuery (by decide)] at h
  exact h

/-- C6: a mapping list with a duplicate source key or a duplicate target key
makes `validateProcess` return false, while a source key equal to a target
key is allowed (witnessed by a validated process whose only mapping uses the
same key on both sides). -/
theorem validateProcess_uniqueness :
    (∀ process : Process,
      (¬ (process.options.fields.map (fun f => f.sourceField.key)).Nodup ∨
       ¬ (process.options.fields.map (fun f => f.targetField.key)).Nodup) →
      validateProcess process = false) ∧
    validateProcess sharedKeyProcess = true := by
  constructor
  · exact validateProcess_false_of_dup
  · rfl

/-- Witness for C6: duplicated source keys in a concrete process make
`validateProcess` return false. -/
theorem validateProcess_uniqueness_witness :
    validateProcess dupSourceProcess = false :=
  validateProcess_uniqueness.1 dupSourceProcess (Or.inl (by decide))

/-- C7: for a valid mapping list (non-empty, duplicate-free source keys and
target keys), the built schema has a query slot count and a mutation slot
count that both equal the length of the mapping list. -/
theorem createSchema_cardinality (fields : List MappedField) (src tgt : Integration)
    (_h1 : fields ≠ [])
    (h2 : (fields.map (fun f => f.sourceField.key)).Nodup)
    (h3 : (fields.map (fun f => f.targetField.key)).Nodup) :
    ∃ qt mt, (createSchema fields src tgt).query = some qt ∧
      (createSchema fields src tgt).mutation = some mt ∧
      qt.fields.length = fields.length ∧ mt.fields.length = fields.length := by
  refine ⟨createQuerySchema fields src.resolveQuery,
    createMutationSchema fields tgt.resolveMutation, rfl, rfl, ?_, ?_⟩
  · rw [querySchema_fields_of_nodup fields _ h2]
    simp
  · rw [mutSchema_fields_of_nodup fields _ h3]
    simp

/-- Witness for C7 at the repository's test scenario: both slot-sets of the
generated schema have exactly two slots. -/
theorem createSchema_cardinality_witness :
    ∃ qt mt, (createSchema mockFields mockSource mockTarget).query = some qt ∧
      (createSchema mockFields mockSource mockTarget).mutation = some mt ∧
      qt.fields.length = mockFields.length ∧ mt.fields.length = mockFields.length :=
  createSchema_cardinality mockFields mockSource mockTarget
    (by decide) (by decide) (by decide)

/-- C9: `createProcess` returns the error `Invalid process` exactly when the
validator rejects the process built from the given options (in particular
for an empty fields list), and otherwise returns the process holding those
options and the derived schema. -/
theorem createProcess_validator (options : ProcessOptions) :
    (validateProcess
        { options := options
          schema := createSchema options.fields options.sourceIntegration
            options.targetIntegration } = false →
      createProcess options = Except.error "Invalid process") ∧
    (validateProcess
        { options := options
          schema := createSchema options.fields options.sourceIntegration
            options.targetIntegration } = true →
      createProcess options = Except.ok
        { options := options
          schema := createSchema options.fields options.sourceIntegration
            options.targetIntegration }) ∧
    (options.fields = [] → createProcess options = Except.error "Invalid process") := by
  have hpart1 : validateProcess
      { options := options
        schema := createSchema options.fields options.sourceIntegration
          options.targetIntegration } = false →
      createProcess options = Except.error "Invalid process" := by
    intro h
    unfold createProcess
    rw [if_neg (by simp [h])]
  have hpart2 : validateProcess
      { options := options
        schema := createSchema options.fields options.sourceIntegration
          options.targetIntegration } = true →
      createProcess options = Except.ok
        { options := options
          schema := createSchema options.fields options.sourceIntegration
            options.targetIntegration } := by
    intro h
    unfold createProcess
    rw [if_pos h]
  refine ⟨hpart1, hpart2, fun hf => hpart1 ?_⟩
  unfold validateProcess
  rw [if_pos]
  show ¬ (options.fields.length > 0)
  rw [hf]
  simp

/-- Witness for C9 at the repository's test scenario: `createProcess`
succeeds and returns the options together with the derived schema. -/
theorem createProcess_validator_witness :
    createProcess mockOptions = Except.ok mockProcess :=
  (createProcess_validator mockOptions).2.1 (by decide)

/-- C10: building a slot-set collapses duplicate slot names by JS object
spread: the slot names are always pairwise distinct (even for invalid
mapping lists), and the slot stored under a name is generated from the LAST
mapping-list entry bearing that name (its resolve closure captures that
entry), while the name keeps its first-occurrence position. -/
theorem schema_slot_dedup (fields : List MappedField) (qr : Option QueryResolver)
    (mr : Option MutationResolver) (n : String) :
    ((createQuerySchema fields qr).fields.map Prod.fst).Nodup ∧
    ((createMutationSchema fields mr).fields.map Prod.fst).Nodup ∧
    List.lookup n (createQuerySchema fields qr).fields =
      fields.reverse.find? (fun f => f.sourceField.key == n) ∧
    List.lookup n (createMutationSchema fields mr).fields =
      fields.reverse.find? (fun f => f.targetField.key == n) := by
  refine ⟨jsObject_keys_nodup _, jsObject_keys_nodup _, ?_, ?_⟩
  · unfold createQuerySchema
    rw [jsObject_lookup, ← List.map_reverse, List.find?_map]
    rw [show ((fun p : String × MappedField => p.1 == n) ∘
        fun f : MappedField => (f.sourceField.key, f)) =
        (fun f : MappedField => f.sourceField.key == n) from rfl]
    cases List.find? (fun f => f.sourceField.key == n) fields.reverse <;> rfl
  · unfold createMutationSchema
    rw [jsObject_lookup, ← List.map_reverse, List.find?_map]
    rw [show ((fun p : String × MappedField => p.1 == n) ∘
        fun f : MappedField => (f.targetField.key, f)) =
        (fun f : MappedField => f.targetField.key == n) from rfl]
    cases List.find? (fun f => f.targetField.key == n) fields.reverse <;> rfl

/-- C2: sync is a total function of the process and the resolvers' behaviour
(the embedding returns `Option` instead of throwing): it returns none when
the validator rejects, none when the query phase signals any error (resolver
rejection or text generation), none when the mutation phase signals any
error, and the mutation result mapping when both phases succeed. -/
theorem sync_no_throw (process : Process) :
    (validateProcess process = false → sync process = none) ∧
    ((∃ e, resolveSource process = Except.error e) → sync process = none) ∧
    (∀ qr, resolveSource process = Except.ok qr →
      ((∃ e, resolveTarget process qr = Except.error e) → sync process = none) ∧
      (∀ mr, resolveTarget process qr = Except.ok mr →
        validateProcess process = true → sync process = some mr)) := by
  refine ⟨fun hf => ?_, fun ⟨e, he⟩ => ?_, fun qr hqr => ⟨fun ⟨e, he⟩ => ?_, fun mr hmr hv => ?_⟩⟩
  · simp [sync, hf]
  · by_cases hv : validateProcess process = true
    · simp [sync, hv, he]
    · simp [sync, hv]
  · by_cases hv : validateProcess process = true
    · simp [sync, hv, hqr, he]
    · simp [sync, hv]
  · simp [sync, hv, hqr, hmr]

/-- Witness for C2: a process with duplicate source keys is rejected by the
validator and sync returns none. -/
theorem sync_no_throw_witness : sync dupSourceProcess = none :=
  (sync_no_throw dupSourceProcess).1 (by rfl)

def cexFieldsAB : List MappedField :=
  [ { sourceField := { key := "a", type := FieldType.string }
      targetField := { key := "b", type := FieldType.string } } ]

/-- Counterexample to C3 as stated: the paired source key `a` of the only
mutation slot `b` exists in the mapping list, and queryResults is empty, so
the claim predicts a MappingError naming `b`; instead createMutationString
succeeds, rendering the absent entry as the JS string `undefined`. -/
theorem createMutationString_missing_entry_cex :
    createMutationString (createSchema cexFieldsAB mockSource mockTarget)
      cexFieldsAB [] =
      Except.ok "mutation\x7bb(resolvedQuery:\x22undefined\x22)\x7d" := rfl

/-- C3 (amended): createMutationString fails with the MappingError naming an
offending mutation slot exactly when some slot has no paired source key in
the mapping list (or a paired key that is the empty string, which the JS
falsy test also rejects); when every slot has a non-empty paired source key
it succeeds even if queryResults lacks entries, rendering missing entries as
the string `undefined`. -/
theorem createMutationString_mapping_error (fields mappings : List MappedField)
    (qres : List (String × FieldValue)) (src tgt : Integration) :
    ((∃ p ∈ (createMutationSchema fields tgt.resolveMutation).fields,
        findQueryFieldName mappings p.1 = none ∨
        findQueryFieldName mappings p.1 = some "") →
      ∃ n, (∃ p ∈ (createMutationSchema fields tgt.resolveMutation).fields,
          p.1 = n ∧ (findQueryFieldName mappings n = none ∨
            findQueryFieldName mappings n = some "")) ∧
        createMutationString (createSchema fields src tgt) mappings qres =
          Except.error ("Could not find query field for mutation field: " ++ n)) ∧
    ((∀ p ∈ (createMutationSchema fields tgt.resolveMutation).fields,
        ∃ q, findQueryFieldName mappings p.1 = some q ∧ q ≠ "") →
      createMutationString (createSchema fields src tgt) mappings qres =
        Except.ok ("mutation\x7b" ++
          joinSpace ((createMutationSchema fields tgt.resolveMutation).fields.map
            (fun p => p.1 ++ "(resolvedQuery:\"" ++
              jsStringOfLookup
                (List.lookup ((findQueryFieldName mappings p.1).getD "") qres) ++
              "\")")) ++ "\x7d")) := by
  have hunfold : createMutationString (createSchema fields src tgt) mappings qres =
      (exceptMapM (buildFrag mappings qres)
        (createMutationSchema fields tgt.resolveMutation).fields) >>= fun frags =>
        Except.ok ("mutation\x7b" ++ joinSpace frags ++ "\x7d") := rfl
  constructor
  · rintro ⟨p, hp, hbad⟩
    have hex : ∃ a ∈ (createMutationSchema fields tgt.resolveMutation).fields,
        ∃ e, buildFrag mappings qres a = Except.error e := by
      refine ⟨p, hp, "Could not find query field for mutation field: " ++ p.1, ?_⟩
      exact (buildFrag_error_iff mappings qres p _).mpr ⟨rfl, hbad⟩
    obtain ⟨a, ha, e, hfe, hmap⟩ := exceptMapM_first_error _ _ hex
    obtain ⟨hename, habad⟩ := (buildFrag_error_iff mappings qres a e).mp hfe
    refine ⟨a.1, ⟨a, ha, rfl, habad⟩, ?_⟩
    rw [hunfold, hmap, ← hename]
    rfl
  · intro h
    exact createMutationString_ok fields mappings qres src tgt h

/-- Witness for C3: with an empty mapping list the only mutation slot `b`
has no paired source key and createMutationString signals the MappingError
naming it. -/
theorem createMutationString_mapping_error_witness :
    ∃ n, (∃ p ∈ (createMutationSchema cexFieldsAB mockTarget.resolveMutation).fields,
        p.1 = n ∧ (findQueryFieldName [] n = none ∨ findQueryFieldName [] n = some "")) ∧
      createMutationString (createSchema cexFieldsAB mockSource mockTarget) [] [] =
        Except.error ("Could not find query field for mutation field: " ++ n) :=
  (createMutationString_mapping_error cexFieldsAB [] [] mockSource mockTarget).1
    (by decide)

def emptyKeyFields : List MappedField :=
  [ { sourceField := { key := "", type := FieldType.string }
      targetField := { key := "t1", type := FieldType.string } } ]

/-- Counterexample to C5 as stated: the mutation slot `t1` has the paired
source key `""` and queryResults has an entry for every paired source key,
yet createMutationString does not emit the fragment with the stored value —
the JS falsy test on the empty key makes it fail with the MappingError. -/
theorem createMutationString_empty_key_cex :
    createMutationString (createSchema emptyKeyFields mockSource mockTarget)
      emptyKeyFields [("", "v")] =
      Except.error "Could not find query field for mutation field: t1" := rfl

/-- C5 (amended): provided every mutation slot has a non-empty paired source
key, createMutationString emits one fragment `name(resolvedQuery:"value")`
per mutation slot in descriptor order, space-joined and wrapped as
`mutation{...}`, and whenever queryResults has an entry for the paired
source key the inserted value is exactly that entry, verbatim and
unescaped. -/
theorem createMutationString_subst (fields mappings : List MappedField)
    (qres : List (String × FieldValue)) (src tgt : Integration)
    (h : ∀ p ∈ (createMutationSchema fields tgt.resolveMutation).fields,
      ∃ q, findQueryFieldName mappings p.1 = some q ∧ q ≠ "" ∧
        (List.lookup q qres).isSome) :
    createMutationString (createSchema fields src tgt) mappings qres =
      Except.ok ("mutation\x7b" ++
        joinSpace ((createMutationSchema fields tgt.resolveMutation).fields.map
          (fun p => p.1 ++ "(resolvedQuery:\"" ++
            jsStringOfLookup
              (List.lookup ((findQueryFieldName mappings p.1).getD "") qres) ++
            "\")")) ++ "\x7d") ∧
    (∀ p ∈ (createMutationSchema fields tgt.resolveMutation).fields, ∀ q v,
      findQueryFieldName mappings p.1 = some q → List.lookup q qres = some v →
      jsStringOfLookup (List.lookup ((findQueryFieldName mappings p.1).getD "") qres) =
        v) := by
  constructor
  · exact createMutationString_ok fields mappings qres src tgt
      (fun p hp => by obtain ⟨q, hq, hqne, _⟩ := h p hp; exact ⟨q, hq, hqne⟩)
  · intro p _ q v hq hv
    rw [hq]
    show jsStringOfLookup (List.lookup q qres) = v
    rw [hv]
    rfl

/-- Witness for C5 at the repository's test scenario: the generated mutation
text inserts both resolved values verbatim. -/
theorem createMutationString_subst_witness :
    createMutationString (createSchema mockFields mockSource mockTarget) mockFields
      [("name", "source_name_value"), ("age", "source_age_value")] =
      Except.ok
        "mutation\x7bfullName(resolvedQuery:\x22source_name_value\x22) userAge(resolvedQuery:\x22source_age_value\x22)\x7d" := by
  have h := (createMutationString_subst mockFields mockFields
    [("name", "source_name_value"), ("age", "source_age_value")]
    mockSource mockTarget ?_).1
  · exact h
  · intro p hp
    have hp' : p = ("fullName",
        { sourceField := { key := "name", type := FieldType.string }
          targetField := { key := "fullName", type := FieldType.string } }) ∨
        p = ("userAge",
        { sourceField := { key := "age", type := FieldType.number }
          targetField := { key := "userAge", type := FieldType.number } }) := by
      have : (createMutationSchema mockFields mockTarget.resolveMutation).fields =
          [("fullName",
            { sourceField := { key := "name", type := FieldType.string }
              targetField := { key := "fullName", type := FieldType.string } }),
           ("userAge",
            { sourceField := { key := "age", type := FieldType.number }
              targetField := { key := "userAge", type := FieldType.number } })] := rfl
      rw [this] at hp
      simpa using hp
    rcases hp' with rfl | rfl
    · exact ⟨"name", rfl, by decide, by rfl⟩
    · exact ⟨"age", rfl, by decide, by rfl⟩

def c8Fields : List MappedField :=
  [ { sourceField := { key := "a", type := FieldType.string }
      targetField := { key := "x", type := FieldType.string } },
    { sourceField := { key := "a", type := FieldType.string }
      targetField := { key := "y", type := FieldType.string } } ]

/-- Counterexample to C8 as stated: the target key `y` appears exactly once
in the mapping list, but its paired source key `a` also belongs to an
earlier entry, so the round trip lands on that entry's target key `x`, not
`y`. -/
theorem find_inverse_cex :
    (c8Fields.map (fun f => f.targetField.key)).count "y" = 1 ∧
    (findQueryFieldName c8Fields "y").bind (findMutationFieldName c8Fields) =
      some "x" ∧
    some "x" ≠ (some "y" : Option String) := by
  refine ⟨by decide, by decide, by decide⟩

/-- C8 (amended): for a fixed mapping list and a target key `t` that appears
exactly once, whose paired source key also appears exactly once among the
source keys, the two lookups are mutually inverse:
`findMutationFieldName (findQueryFieldName t) = t`. -/
theorem find_inverse (fields : List MappedField) (t : String)
    (h1 : (fields.map (fun f => f.targetField.key)).count t = 1)
    (h2 : ∀ s, findQueryFieldName fields t = some s →
      (fields.map (fun f => f.sourceField.key)).count s = 1) :
    ∃ s, findQueryFieldName fields t = some s ∧
      findMutationFieldName fields s = some t := by
  obtain ⟨f, hfind, hkey, hmem, _⟩ :=
    find?_count_one fields (fun g => g.targetField.key) t h1
  have hfq : findQueryFieldName fields t = some f.sourceField.key := by
    unfold findQueryFieldName
    rw [hfind]
    rfl
  refine ⟨f.sourceField.key, hfq, ?_⟩
  obtain ⟨g, hfind2, _, _, huniq2⟩ :=
    find?_count_one fields (fun g => g.sourceField.key) f.sourceField.key
      (h2 _ hfq)
  have hfg : f = g := huniq2 f hmem rfl
  unfold findMutationFieldName
  rw [hfind2, ← hfg]
  rw [Option.map_some', hkey]

/-- Witness for C8 at the repository's test scenario: the unique target key
`fullName` round-trips through its unique source key `name`. -/
theorem find_inverse_witness :
    ∃ s, findQueryFieldName mockFields "fullName" = some s ∧
      findMutationFieldName mockFields s = some "fullName" :=
  find_inverse mockFields "fullName" (by decide) (by
    intro s hs
    rw [show findQueryFieldName mockFields "fullName" = some "name" from rfl] at hs
    cases hs
    decide)

def badQuoteSource : Integration :=
  { name := "source"
    description := "source integration"
    resolveQuery := some (fun _ => Except.ok "abc\"def")
    resolveMutation := some (fun k v => Except.ok ("mutated_" ++ k ++ "_" ++ v)) }

def quoteFields : List MappedField :=
  [ { sourceField := { key := "name", type := FieldType.string }
      targetField := { key := "fullName", type := FieldType.string } } ]

def quoteProcess : Process :=
  { options :=
      { fields := quoteFields
        sourceIntegration := badQuoteSource
        targetIntegration := mockTarget }
    schema := createSchema quoteFields badQuoteSource mockTarget }

/-- Counterexample to C1 as stated: a valid one-entry mapping list with
always-fulfilling resolvers where the resolved query value contains a double
quote.  The claim predicts the mapping
`some [(fullName, resolveMutation fullName "abc\"def")]`, but the value is
interpolated unescaped into the mutation text, which then fails to parse,
so sync returns none. -/
theorem sync_fulfilled_resolvers_cex :
    sync quoteProcess = none ∧
    (none : Option (List (String × FieldValue))) ≠
      some [("fullName", "mutated_fullName_abc\"def")] := by
  exact ⟨rfl, by decide⟩

/-- C1 (amended): for a process built from a valid mapping list whose field
keys are syntactically valid names, with two integrations whose resolvers
always fulfil, and whose resolved query values contain no double quote,
backslash or raw newline (so that the unescaped interpolation round-trips),
sync returns the mapping assigning to each targetField.key the value
`resolveMutation targetField.key v`, where `v` is the value
`resolveQuery sourceField.key` produced in the query phase. -/
theorem sync_fulfilled_resolvers (fields : List MappedField) (src tgt : Integration)
    (qv : String → FieldValue) (mv : String → FieldValue → FieldValue)
    (hne : fields ≠ [])
    (hsrc : (fields.map (fun f => f.sourceField.key)).Nodup)
    (htgt : (fields.map (fun f => f.targetField.key)).Nodup)
    (hkeys : ∀ f ∈ fields, isGraphQLName f.sourceField.key = true ∧
      isGraphQLName f.targetField.key = true)
    (hq : src.resolveQuery = some (fun k => Except.ok (qv k)))
    (hm : tgt.resolveMutation = some (fun k v => Except.ok (mv k v)))
    (hgood : ∀ f ∈ fields, goodValue (qv f.sourceField.key)) :
    sync { options :=
            { fields := fields, sourceIntegration := src, targetIntegration := tgt }
           schema := createSchema fields src tgt } =
      some (fields.map (fun f =>
        (f.targetField.key, mv f.targetField.key (qv f.sourceField.key)))) := by
  have hsne : ∀ f ∈ fields, f.sourceField.key ≠ "" := by
    intro f hf hc
    exact isGraphQLName_ne_nil (hkeys f hf).1 (by rw [hc])
  have hv : validateProcess
      { options :=
          { fields := fields, sourceIntegration := src, targetIntegration := tgt }
        schema := createSchema fields src tgt } = true := by
    apply validateProcess_true_of
    · exact hne
    · exact hsrc
    · exact htgt
    · show src.resolveQuery.isSome = true
      rw [hq]
      rfl
    · show tgt.resolveMutation.isSome = true
      rw [hm]
      rfl
    · refine ⟨createQuerySchema fields src.resolveQuery, rfl, ?_⟩
      rw [querySchema_fields_of_nodup fields _ hsrc]
      simp
    · refine ⟨createMutationSchema fields tgt.resolveMutation, rfl, ?_⟩
      rw [mutSchema_fields_of_nodup fields _ htgt]
      simp
  have hrs := resolveSource_ok
    { options :=
        { fields := fields, sourceIntegration := src, targetIntegration := tgt }
      schema := createSchema fields src tgt }
    fields src tgt qv rfl hne hsrc (fun f hf => (hkeys f hf).1) hq
  have hrt := resolveTarget_ok
    { options :=
        { fields := fields, sourceIntegration := src, targetIntegration := tgt }
      schema := createSchema fields src tgt }
    fields src tgt qv mv rfl rfl hne hsrc htgt (fun f hf => (hkeys f hf).2)
    hsne hm hgood
  unfold sync
  rw [if_neg (not_not_intro hv), hrs]
  show (match resolveTarget
      { options :=
          { fields := fields, sourceIntegration := src, targetIntegration := tgt }
        schema := createSchema fields src tgt }
      (fields.map (fun f => (f.sourceField.key, qv f.sourceField.key))) with
    | Except.error _ => none
    | Except.ok mutationResults => some mutationResults) = _
  rw [hrt]

/-- Witness for C1 at the repository's test scenario: sync produces exactly
the mapping from the specification's example. -/
theorem sync_fulfilled_resolvers_witness :
    sync mockProcess =
      some [("fullName", "mutated_fullName_source_name_value"),
            ("userAge", "mutated_userAge_source_age_value")] := by
  have h := sync_fulfilled_resolvers mockFields mockSource mockTarget
    (fun k => "source_" ++ k ++ "_value")
    (fun k v => "mutated_" ++ k ++ "_" ++ v)
    (by decide) (by decide) (by decide) (by decide) rfl rfl (by decide)
  exact h

end Nanosync
